import Mathlib

/-!
Formal model of the foodgram recipe-sharing backend (Django/DRF application).

We shallowly embed the application logic that the specification talks about:

* the recipe write path (`backend/api/serializers.py`,
  `RecipeWriteSerializer`): field validators `validate_ingredients`,
  `validate_tags`, `validate_cooking_time`, and the `create` / `update`
  methods that replace tag and ingredient associations;
* the favorite / shopping-cart toggles and the shopping-list aggregation
  (`backend/api/views.py`, `RecipeViewSet`);
* the permission predicates (`backend/api/permissions.py`) together with
  the framework's `OR` composition used by `RecipeViewSet`;
* subscription management (`backend/users/views.py`, `UserViewSet.subscribe`);
* the registration field validators (`backend/api/serializers.py`,
  `UserSerializer`), in particular the regex validator for usernames;
* the `recipes_limit` handling of the subscription serializers
  (`SubscriptionSerializer.get_recipes`), including a model of Python's
  built-in `int` conversion and of queryset slicing.

Database tables are embedded as lists of rows; each Django view / serializer
method becomes a pure Lean function returning the HTTP status (or an
`Except`-style error) together with the updated store.  Machine integers play
no role here (all quantities are small database integers), so `Nat` / `Int`
are used directly.
-/

namespace Foodgram

/-- A row of the `Ingredient` reference table: primary key, name and
measurement unit (`recipes.models.Ingredient`). -/
structure Ingredient where
  id : Nat
  name : String
  measurement_unit : String
deriving DecidableEq

/-- One entry of the `ingredients` list in a recipe write request, as produced
by `IngredientInRecipeWriteSerializer`: an ingredient primary key and an
amount. -/
structure IngredientItem where
  id : Nat
  amount : Int
deriving DecidableEq

/-- Errors surfaced by the serializer layer: `validation msg` models a DRF
`ValidationError` (HTTP 400 with a field-scoped message), `http404` models the
`Http404` raised by `get_object_or_404` (rendered as a not-found response). -/
inductive ApiError where
  | validation (msg : String)
  | http404
deriving DecidableEq

/-- `RecipeWriteSerializer.validate_cooking_time`: rejects a value `≤ 0` and a
value `> 600`, otherwise returns the value unchanged. -/
def validate_cooking_time (value : Int) : Except ApiError Int :=
  if value ≤ 0 then
    .error (.validation "Время приготовления должно быть больше нуля.")
  else if value > 600 then
    .error (.validation "Время приготовления должно быть меньше 600 минут.")
  else .ok value

/-- The loop body of `RecipeWriteSerializer.validate_tags`: walk the tag list
(tags are primary keys already resolved by `PrimaryKeyRelatedField`), keeping
the list of tags seen so far, and fail on a repeated tag.  Django model
instances compare equal exactly when their primary keys do, so `seen` holds
tag ids. -/
def validateTagsAux (seen : List Nat) : List Nat → Except ApiError Unit
  | [] => .ok ()
  | tag :: rest =>
    if tag ∈ seen then .error (.validation "Теги должны быть уникальными!")
    else validateTagsAux (seen ++ [tag]) rest

/-- `RecipeWriteSerializer.validate_tags`: an empty list fails, then the list
is scanned for duplicates. -/
def validate_tags (value : List Nat) : Except ApiError (List Nat) :=
  if value.isEmpty then
    .error (.validation "Нужно выбрать хотя бы один тег!")
  else
    match validateTagsAux [] value with
    | .error e => .error e
    | .ok _ => .ok value

/-- The loop body of `RecipeWriteSerializer.validate_ingredients`: for each
item, `get_object_or_404(Ingredient, id=item.id)` (a missing id raises
`Http404`), then the duplicate check against the ingredients seen so far
(model instances compare by primary key), then the `amount ≤ 0` check. -/
def validateIngredientsAux (db : List Ingredient) (seen : List Nat) :
    List IngredientItem → Except ApiError Unit
  | [] => .ok ()
  | item :: rest =>
    match db.find? (fun ing => ing.id == item.id) with
    | none => .error .http404
    | some ing =>
      if ing.id ∈ seen then
        .error (.validation "Ингридиенты не могут повторяться!")
      else if item.amount ≤ 0 then
        .error (.validation "Количество ингредиента должно быть больше 0!")
      else validateIngredientsAux db (seen ++ [ing.id]) rest

/-- `RecipeWriteSerializer.validate_ingredients`: an empty list fails, then
the per-item loop runs. -/
def validate_ingredients (db : List Ingredient)
    (value : List IngredientItem) : Except ApiError (List IngredientItem) :=
  if value.isEmpty then
    .error (.validation "Нужен хотя бы один ингредиент!")
  else
    match validateIngredientsAux db [] value with
    | .error e => .error e
    | .ok _ => .ok value

/-- The association tables relevant to the recipe write path: the `Recipe`
rows (by id), the recipe–tag many-to-many rows `(recipe id, tag id)`, and the
`IngredientInRecipe` rows `(recipe id, ingredient id, amount)`. -/
structure RecipeStore where
  recipes : List Nat
  recipeTags : List (Nat × Nat)
  recipeIngredients : List (Nat × Nat × Int)
deriving DecidableEq

/-- `instance.tags.clear()`: drop every tag row of the given recipe. -/
def tags_clear (s : RecipeStore) (r : Nat) : RecipeStore :=
  { s with recipeTags := s.recipeTags.filter (fun row => !(row.1 == r)) }

/-- `instance.tags.set(tags)`: make the recipe's tag rows exactly the given
tags (the many-to-many `set` removes rows not in `tags` and adds the missing
ones). -/
def tags_set (s : RecipeStore) (r : Nat) (tags : List Nat) : RecipeStore :=
  let c := tags_clear s r
  { c with recipeTags := c.recipeTags ++ tags.map (fun t => (r, t)) }

/-- `instance.ingredients.clear()`: drop every `IngredientInRecipe` row of the
given recipe. -/
def ingredients_clear (s : RecipeStore) (r : Nat) : RecipeStore :=
  { s with recipeIngredients :=
      s.recipeIngredients.filter (fun row => !(row.1 == r)) }

/-- `RecipeWriteSerializer.create_ingredients_amounts`: bulk-create one
`IngredientInRecipe` row per request item. -/
def create_ingredients_amounts (s : RecipeStore) (r : Nat)
    (ingredients : List IngredientItem) : RecipeStore :=
  { s with recipeIngredients :=
      s.recipeIngredients ++
        ingredients.map (fun item => (r, item.id, item.amount)) }

/-- The association mutation performed by `RecipeWriteSerializer.update`
(after validation): clear the tags, set the new tags, clear the ingredient
rows, bulk-create the new ingredient rows.  The whole method runs under
`@transaction.atomic`, so it is modelled as a single pure state transition. -/
def recipe_update (s : RecipeStore) (r : Nat) (tags : List Nat)
    (ingredients : List IngredientItem) : RecipeStore :=
  create_ingredients_amounts
    (ingredients_clear (tags_set (tags_clear s r) r tags) r) r ingredients

/-- The mutation performed by `RecipeWriteSerializer.create` (after
validation): create the `Recipe` row, set its tags, bulk-create its
ingredient rows — all under `@transaction.atomic`. -/
def recipe_create (s : RecipeStore) (r : Nat) (tags : List Nat)
    (ingredients : List IngredientItem) : RecipeStore :=
  create_ingredients_amounts
    (tags_set { s with recipes := s.recipes ++ [r] } r tags) r ingredients

/-- The recipe update request pipeline: DRF runs the field validators
(`validate_ingredients`, `validate_tags`); only when all of them succeed does
`RecipeWriteSerializer.update` mutate the store. -/
def recipeWriteUpdate (db : List Ingredient) (s : RecipeStore) (r : Nat)
    (tags : List Nat) (ingredients : List IngredientItem) :
    Except ApiError RecipeStore :=
  match validate_ingredients db ingredients with
  | .error e => .error e
  | .ok _ =>
    match validate_tags tags with
    | .error e => .error e
    | .ok _ => .ok (recipe_update s r tags ingredients)

/-- The recipe create request pipeline: field validation, then
`RecipeWriteSerializer.create`. -/
def recipeWriteCreate (db : List Ingredient) (s : RecipeStore) (r : Nat)
    (tags : List Nat) (ingredients : List IngredientItem) :
    Except ApiError RecipeStore :=
  match validate_ingredients db ingredients with
  | .error e => .error e
  | .ok _ =>
    match validate_tags tags with
    | .error e => .error e
    | .ok _ => .ok (recipe_create s r tags ingredients)

/-- An `IngredientInRecipe` row joined with its `Ingredient`, as produced by
the queryset of `RecipeViewSet.download_shopping_cart`
(`values ingredient name, ingredient measurement unit / annotate Sum`):
the owning recipe id, the ingredient name, its measurement unit and the
amount. -/
structure CartRow where
  recipe : Nat
  name : String
  measurement_unit : String
  amount : Int
deriving DecidableEq

/-- `RecipeViewSet.download_shopping_cart`: if the acting user's cart relation
is empty, answer the 400 error; otherwise take the ingredient rows of all
carted recipes, group them by `(ingredient name, measurement unit)` and sum
the amounts within each group (the `values(...).annotate(amount=Sum(...))`
queryset).  `cart` is the list of recipe ids in the user's cart (unique by the
database constraint on `(user, recipe)`), `rows` the `IngredientInRecipe`
table.  The result is the list of aggregated lines, one per group, keyed by
`(name, unit)`. -/
def cart_lines (cart : List Nat) (rows : List CartRow) :
    List ((String × String) × Int) :=
  let inCart := rows.filter (fun row => decide (row.recipe ∈ cart))
  ((inCart.map (fun row => (row.name, row.measurement_unit))).dedup).map
    (fun k =>
      (k, ((inCart.filter
             (fun row => decide ((row.name, row.measurement_unit) = k))).map
               (fun row => row.amount)).sum))

def download_shopping_cart (cart : List Nat) (rows : List CartRow) :
    Except String (List ((String × String) × Int)) :=
  if cart.isEmpty then .error "Корзина покупок пуста!"
  else .ok (cart_lines cart rows)

/-- The request principal as the permission code sees it: Django's
`request.user` with its `is_authenticated` and ` is_staff` flags and primary
key.  An anonymous request carries `AnonymousUser`, for which both flags are
`False` and which compares unequal to every stored `User`. -/
structure PyUser where
  id : Nat
  is_authenticated : Bool
  is_staff : Bool
deriving DecidableEq

/-- `rest_framework.permissions.SAFE_METHODS`. -/
def SAFE_METHODS : List String := ["GET", "HEAD", "OPTIONS"]

/-- `IsAdminOrReadOnly.has_permission`: safe method, or ` is_staff`. -/
def isAdminOrReadOnly_has_permission (method : String) (user : PyUser) : Bool :=
  decide (method ∈ SAFE_METHODS) || user.is_staff

/-- `IsAuthorOrReadOnly.has_permission`: safe method, or authenticated. -/
def isAuthorOrReadOnly_has_permission (method : String) (user : PyUser) : Bool :=
  decide (method ∈ SAFE_METHODS) || user.is_authenticated

/-- `IsAuthorOrReadOnly.has_object_permission`: `obj.author == request.user`.
Django model equality is primary-key equality, and `AnonymousUser` never
equals a stored `User`, hence the `is_authenticated` conjunct. -/
def isAuthorOrReadOnly_has_object_permission (user : PyUser)
    (authorId : Nat) : Bool :=
  user.is_authenticated && user.id == authorId

/-- `RecipeViewSet.permission_classes = (IsAuthorOrReadOnly | IsAdminOrReadOnly,)`:
the framework's `OR` composition of the two `has_permission` checks. -/
def recipe_has_permission (method : String) (user : PyUser) : Bool :=
  isAuthorOrReadOnly_has_permission method user ||
    isAdminOrReadOnly_has_permission method user

/-- The `OR` composition at object level: each side contributes
`has_permission && has_object_permission`; `IsAdminOrReadOnly` inherits the
default `has_object_permission`, which is `True`. -/
def recipe_has_object_permission (method : String) (user : PyUser)
    (authorId : Nat) : Bool :=
  (isAuthorOrReadOnly_has_permission method user &&
    isAuthorOrReadOnly_has_object_permission user authorId) ||
  (isAdminOrReadOnly_has_permission method user && true)

/-- Outcome of the permission layer for a request: proceed, or be rejected
with 401 (no authenticated principal) or 403 (authenticated but denied), as
`permission_denied` does. -/
inductive PermOutcome where
  | allowed
  | unauthenticated
  | forbidden
deriving DecidableEq

/-- The framework's permission flow on a detail route of `RecipeViewSet`:
`check_permissions` runs the composed `has_permission`, then `get_object`
runs the composed `has_object_permission`; a denial raises 401 when the
request has no authenticated principal and 403 otherwise. -/
def checkRecipePermission (method : String) (user : PyUser)
    (authorId : Nat) : PermOutcome :=
  if !(recipe_has_permission method user) then
    if user.is_authenticated then .forbidden else .unauthenticated
  else if !(recipe_has_object_permission method user authorId) then
    if user.is_authenticated then .forbidden else .unauthenticated
  else .allowed

/-- A recipe update request as dispatched by the framework: the permission
checks run first and a denial leaves the store untouched; only an allowed
request reaches the serializer (whose own validation failures also leave the
store untouched). -/
def guardedRecipeUpdate (method : String) (user : PyUser) (authorId : Nat)
    (db : List Ingredient) (s : RecipeStore) (r : Nat) (tags : List Nat)
    (ingredients : List IngredientItem) : PermOutcome × RecipeStore :=
  match checkRecipePermission method user authorId with
  | .allowed =>
    (.allowed,
      match recipeWriteUpdate db s r tags ingredients with
      | .ok s2 => s2
      | .error _ => s)
  | o => (o, s)

/-- `RecipeViewSet._add_to(model, user, pk)` for a relation table `rel` of
`(user id, recipe id)` rows (`Favourite` or `ShoppingCart`; the helper is
generic in the model): an existing relation answers 400 and changes nothing;
otherwise the recipe is resolved with `get_object_or_404` (404 when absent);
otherwise one relation row is created (201).  Returns the HTTP status and the
relation table afterwards. -/
def add_to (rel : List (Nat × Nat)) (recipes : List Nat)
    (user pk : Nat) : Nat × List (Nat × Nat) :=
  if (user, pk) ∈ rel then (400, rel)
  else if pk ∈ recipes then (201, rel ++ [(user, pk)])
  else (404, rel)

/-- `RecipeViewSet._delete_from(model, user, pk)`: the queryset filtered on
`(user, recipe_id)` is deleted when non-empty (204); otherwise the view
answers 400 with the message `Рецепт не найден!`.  No recipe lookup is
performed. -/
def delete_from (rel : List (Nat × Nat)) (user pk : Nat) :
    Nat × List (Nat × Nat) :=
  if (user, pk) ∈ rel then
    (204, rel.filter (fun row => !(row == (user, pk))))
  else (400, rel)

/-- `UserViewSet.subscribe`, POST branch, for an authenticated user: the
author is resolved with `get_object_or_404` (404 when absent); subscribing to
oneself raises a `ValidationError` (400); an already existing `(user, author)`
subscription raises a `ValidationError` (400); otherwise one `Subscribe` row
is created (201).  `users` is the list of user ids, `subs` the `Subscribe`
table as `(user id, author id)` rows. -/
def subscribe_post (users : List Nat) (subs : List (Nat × Nat))
    (user pk : Nat) : Nat × List (Nat × Nat) :=
  if pk ∉ users then (404, subs)
  else if user = pk then (400, subs)
  else if (user, pk) ∈ subs then (400, subs)
  else (201, subs ++ [(user, pk)])

/-- `UserViewSet.subscribe`, DELETE branch: author resolved with
`get_object_or_404`; a missing `(user, author)` subscription raises a
`ValidationError` (400); otherwise the single matching row (unique by the
`unique_subscribe` constraint) is fetched and deleted (204). -/
def subscribe_delete (users : List Nat) (subs : List (Nat × Nat))
    (user pk : Nat) : Nat × List (Nat × Nat) :=
  if pk ∉ users then (404, subs)
  else if (user, pk) ∉ subs then (400, subs)
  else (204, subs.erase (user, pk))

/-- ASCII reading of the regex class `[\w.@+-]`: word characters
(`re` word characters restricted to ASCII: letters, digits, underscore) and
the four punctuation characters. -/
def usernameCharAllowed (c : Char) : Bool :=
  (('a' ≤ c && c ≤ 'z') || ('A' ≤ c && c ≤ 'Z') ||
    ('0' ≤ c && c ≤ '9') || c == '_') ||
  c == '.' || c == '@' || c == '+' || c == '-'

/-- Django's `RegexValidator` with the pattern `^[\w.@+-]+` of
`UserSerializer.username` / `.email` calls `regex.search(value)`: because the
pattern is anchored only at the start and is one-or-more, the search succeeds
exactly when the first character of the value belongs to the class. -/
def username_regex_matches (s : String) : Bool :=
  match s.data with
  | [] => false
  | c :: _ => usernameCharAllowed c

/-- The validator chain declared on `UserSerializer.username`:
`MaxLengthValidator(150)`, `UniqueValidator` over the existing usernames, and
the `RegexValidator` above.  Returns `true` when the username passes all three
(and the user is then created). -/
def validate_username (existing : List String) (s : String) : Bool :=
  decide (s.length ≤ 150) && !(existing.contains s) &&
    username_regex_matches s

/-- Python whitespace stripped by `int(str)`. -/
def isPySpace (c : Char) : Bool :=
  c == ' ' || c == '\t' || c == '\n' || c == '\r' ||
    c == '\x0b' || c == '\x0c'

/-- Digit tail of Python's integer parsing: further digits, with single
underscores allowed between digits only. -/
def pyDigitsAux (acc : Nat) : List Char → Option Nat
  | [] => some acc
  | '_' :: c :: rest =>
    if c.isDigit then pyDigitsAux (acc * 10 + (c.toNat - 48)) rest else none
  | c :: rest =>
    if c.isDigit then pyDigitsAux (acc * 10 + (c.toNat - 48)) rest else none

/-- A non-empty digit sequence (with single interior underscores), as Python's
`int` accepts after sign and whitespace handling. -/
def pyDigits : List Char → Option Nat
  | [] => none
  | c :: rest =>
    if c.isDigit then pyDigitsAux (c.toNat - 48) rest else none

/-- An ASCII character.  `pyInt?` below models Python's `int` conversion on
ASCII strings only: CPython additionally accepts non-ASCII decimal digits and
non-ASCII whitespace, which this model does not cover, so statements about
`int` rejecting a value are scoped to ASCII inputs. -/
def isAsciiChar (c : Char) : Bool :=
  decide (c.toNat < 128)

/-- Model of Python's built-in `int(str)` on ASCII strings: surrounding
whitespace is ignored, one optional sign is allowed, then a non-empty digit
sequence with single interior underscores; anything else raises `ValueError`
(`none`).  When it accepts a value, the value is all-ASCII, so the `some`
direction is faithful without an ASCII side condition. -/
def pyInt? (s : String) : Option Int :=
  let cs :=
    ((s.data.dropWhile isPySpace).reverse.dropWhile isPySpace).reverse
  match cs with
  | '+' :: rest => (pyDigits rest).map (fun n => (n : Int))
  | '-' :: rest => (pyDigits rest).map (fun n => -(n : Int))
  | rest => (pyDigits rest).map (fun n => (n : Int))

/-- Django queryset slicing `qs[:n]`: a negative bound raises
`AssertionError` (negative indexing is not supported); otherwise the first
`n` rows are taken. -/
def qs_slice_take (l : List Nat) (n : Int) : Option (List Nat) :=
  if n < 0 then none else some (l.take n.toNat)

/-- `SubscriptionSerializer.get_recipes` (and the identical
`SubscribeSerializer.get_recipes`): read the `recipes_limit` query parameter;
an absent parameter, or an empty (falsy) one, leaves the author's recipe list
unsliced; otherwise the raw string goes through `int(limit)` — a value
`int` rejects raises an unhandled `ValueError` (`none`, a server error) —
and the queryset is sliced.  `recipes` is the author's recipe id list. -/
def get_recipes (recipes : List Nat) (limit : Option String) :
    Option (List Nat) :=
  match limit with
  | none => some recipes
  | some v =>
    if v.isEmpty then some recipes
    else
      match pyInt? v with
      | none => none
      | some n => qs_slice_take recipes n

/-- Applying a serializer result to the store: only a successful write
replaces the store; a validation failure (an error response) leaves it
untouched. -/
def apply_write (s : RecipeStore) (res : Except ApiError RecipeStore) :
    RecipeStore :=
  match res with
  | .ok s2 => s2
  | .error _ => s

/-- Digit tail of a Python decimal integer literal (grammar
`digit ("_"? digit)*`). -/
def decLitRest : List Char → Bool
  | [] => true
  | '_' :: c :: rest => c.isDigit && decLitRest rest
  | c :: rest => c.isDigit && decLitRest rest

/-- Modelled from the claim's words: a Python decimal integer literal — a
non-empty digit sequence with single interior underscores, no sign and no
whitespace.  Used only to compare the claim's wording with what `int(str)`
actually accepts. -/
def decimalIntegerLiteral (s : String) : Bool :=
  match s.data with
  | [] => false
  | c :: rest => c.isDigit && decLitRest rest

/-- A small concrete `Ingredient` table used to instantiate the theorems. -/
def dbSample : List Ingredient :=
  [⟨1, "eggs", "g"⟩, ⟨2, "flour", "g"⟩]

/-- A small concrete association store used to instantiate the theorems:
two recipes, each with a tag row and an ingredient row. -/
def storeSample : RecipeStore :=
  ⟨[5, 6], [(5, 7), (6, 9)], [(5, 1, 3), (6, 2, 2)]⟩

/-- A small concrete `IngredientInRecipe` join used to instantiate the
shopping-list theorem: recipes 1 and 2 both use eggs, recipe 1 also uses
flour. -/
def rowsSample : List CartRow :=
  [⟨1, "eggs", "g", 2⟩, ⟨2, "eggs", "g", 5⟩, ⟨1, "flour", "g", 100⟩]

/-! Theorems. -/

/-- Claim C6: a cooking time `≤ 0` or `> 600` always fails
`validate_cooking_time` with a client input error, and every value in
`(0, 600]` passes the check unchanged. -/
theorem validate_cooking_time_spec (v : Int) :
    (v ≤ 0 ∨ 600 < v →
      ∃ msg, validate_cooking_time v = .error (.validation msg)) ∧
    (0 < v → v ≤ 600 → validate_cooking_time v = .ok v) := by
  constructor
  · intro h
    by_cases h0 : v ≤ 0
    · exact ⟨"Время приготовления должно быть больше нуля.",
        by simp [validate_cooking_time, h0]⟩
    · have h6 : 600 < v := by omega
      exact ⟨"Время приготовления должно быть меньше 600 минут.",
        by simp [validate_cooking_time, h0, h6]⟩
  · intro h1 h2
    have h0 : ¬ v ≤ 0 := by omega
    have h6 : ¬ v > 600 := by omega
    simp [validate_cooking_time, h0, h6]

/-- Claim C6, instantiated: 601 is rejected and 600 is accepted. -/
theorem validate_cooking_time_spec_witness :
    (∃ msg, validate_cooking_time 601 = .error (.validation msg)) ∧
    validate_cooking_time 600 = .ok 600 :=
  ⟨(validate_cooking_time_spec 601).1 (Or.inr (by norm_num)),
   (validate_cooking_time_spec 600).2 (by norm_num) (by norm_num)⟩

/-- Claim C4: for a relation table (`Favourite` or `ShoppingCart` — the view
helpers are generic in the model): adding an existing `(user, recipe)`
relation answers 400 and creates nothing; a successful add appends exactly
that one row (201); removing an existing relation deletes exactly its rows
(204); removing an absent relation answers 400 and deletes nothing. -/
theorem favorite_cart_toggle_spec (rel : List (Nat × Nat))
    (recipes : List Nat) (u p : Nat) :
    ((u, p) ∈ rel → add_to rel recipes u p = (400, rel)) ∧
    ((u, p) ∉ rel → p ∈ recipes →
      add_to rel recipes u p = (201, rel ++ [(u, p)])) ∧
    ((u, p) ∈ rel →
      delete_from rel u p =
        (204, rel.filter (fun row => !(row == (u, p))))) ∧
    ((u, p) ∉ rel → delete_from rel u p = (400, rel)) := by
  refine ⟨?_, ?_, ?_, ?_⟩
  · intro h; simp [add_to, h]
  · intro h hp; simp [add_to, h, hp]
  · intro h; simp [delete_from, h]
  · intro h; simp [delete_from, h]

/-- Claim C4, instantiated on a concrete relation table. -/
theorem favorite_cart_toggle_spec_witness :
    add_to [(1, 5)] [5, 6] 1 5 = (400, [(1, 5)]) ∧
    add_to [(1, 5)] [5, 6] 1 6 = (201, [(1, 5), (1, 6)]) ∧
    delete_from [(1, 5)] 1 5 = (204, []) ∧
    delete_from [(1, 5)] 1 6 = (400, [(1, 5)]) :=
  ⟨(favorite_cart_toggle_spec [(1, 5)] [5, 6] 1 5).1 (by decide),
   (favorite_cart_toggle_spec [(1, 5)] [5, 6] 1 6).2.1 (by decide) (by decide),
   (favorite_cart_toggle_spec [(1, 5)] [5, 6] 1 5).2.2.1 (by decide),
   (favorite_cart_toggle_spec [(1, 5)] [5, 6] 1 6).2.2.2 (by decide)⟩

/-- Claim C7: for an authenticated user and an existing author id:
subscribing to oneself answers 400 regardless of the subscription table;
subscribing when the relation already exists answers 400 and creates
nothing; a successful subscribe appends exactly one row (201);
unsubscribing without a relation answers 400 and deletes nothing; a
successful unsubscribe deletes the row (204). -/
theorem subscribe_toggle_spec (users : List Nat) (subs : List (Nat × Nat))
    (u p : Nat) :
    (p ∈ users → u = p → subscribe_post users subs u p = (400, subs)) ∧
    (p ∈ users → u ≠ p → (u, p) ∈ subs →
      subscribe_post users subs u p = (400, subs)) ∧
    (p ∈ users → u ≠ p → (u, p) ∉ subs →
      subscribe_post users subs u p = (201, subs ++ [(u, p)])) ∧
    (p ∈ users → (u, p) ∉ subs →
      subscribe_delete users subs u p = (400, subs)) ∧
    (p ∈ users → (u, p) ∈ subs →
      subscribe_delete users subs u p = (204, subs.erase (u, p))) := by
  refine ⟨?_, ?_, ?_, ?_, ?_⟩
  · intro hp he; simp [subscribe_post, hp, he]
  · intro hp hne hs; simp [subscribe_post, hp, hne, hs]
  · intro hp hne hs; simp [subscribe_post, hp, hne, hs]
  · intro hp hs; simp [subscribe_delete, hp, hs]
  · intro hp hs; simp [subscribe_delete, hp, hs]

/-- Claim C7, instantiated on a concrete subscription table. -/
theorem subscribe_toggle_spec_witness :
    subscribe_post [1, 2] [(1, 2)] 2 2 = (400, [(1, 2)]) ∧
    subscribe_post [1, 2] [(1, 2)] 1 2 = (400, [(1, 2)]) ∧
    subscribe_post [1, 2] [] 1 2 = (201, [(1, 2)]) ∧
    subscribe_delete [1, 2] [] 1 2 = (400, []) ∧
    subscribe_delete [1, 2] [(1, 2)] 1 2 = (204, []) :=
  ⟨(subscribe_toggle_spec [1, 2] [(1, 2)] 2 2).1 (by decide) rfl,
   (subscribe_toggle_spec [1, 2] [(1, 2)] 1 2).2.1 (by decide) (by decide)
     (by decide),
   (subscribe_toggle_spec [1, 2] [] 1 2).2.2.1 (by decide) (by decide)
     (by decide),
   (subscribe_toggle_spec [1, 2] [] 1 2).2.2.2.1 (by decide) (by decide),
   (subscribe_toggle_spec [1, 2] [(1, 2)] 1 2).2.2.2.2 (by decide)
     (by decide)⟩

/-- Claim C8, counterexample: with an empty `Recipe` table (recipe 5 does not
exist) and no relation rows, the remove direction answers 400 — it performs
no `get_object_or_404` lookup — and not the 404 the claim requires for a
missing recipe. -/
theorem delete_from_missing_recipe_counterexample :
    delete_from [] 1 5 = (400, []) ∧ (delete_from [] 1 5).1 ≠ 404 := by
  decide

/-- Claim C8, amended: only the add direction resolves the recipe with
lookup-or-404 (yielding 404 when the recipe is absent and the relation does
not exist); the remove direction performs no recipe lookup and answers the
same 400 client error for an absent relation, whether or not the recipe
exists. -/
theorem favorite_cart_lookup_amended (rel : List (Nat × Nat))
    (recipes : List Nat) (u p : Nat) :
    ((u, p) ∉ rel → p ∉ recipes → add_to rel recipes u p = (404, rel)) ∧
    ((u, p) ∉ rel → delete_from rel u p = (400, rel)) := by
  constructor
  · intro h hp; simp [add_to, h, hp]
  · intro h; simp [delete_from, h]

/-- Claim C8 amended, instantiated: a missing recipe id yields 404 on add and
400 on remove. -/
theorem favorite_cart_lookup_amended_witness :
    add_to [] [] 1 7 = (404, []) ∧ delete_from [] 1 7 = (400, []) :=
  ⟨(favorite_cart_lookup_amended [] [] 1 7).1 (by decide) (by decide),
   (favorite_cart_lookup_amended [] [] 1 7).2 (by decide)⟩

/-- Claim C9: the username regex `^[\w.@+-]+` is anchored only at the start,
so the registration validator accepts the username `a!` even though `!` is
outside the permitted character set — contradicting the validator's own error
message (and the claim). -/
theorem username_validation_accepts_invalid_char :
    validate_username [] "a!" = true ∧
    ("a!".data.all usernameCharAllowed) = false := by
  decide

/-- Claim C10, counterexample: `recipes_limit = "+5"` is non-empty and not a
decimal integer literal, yet `int("+5")` succeeds, so rendering does not raise
— it simply caps the list. -/
theorem get_recipes_plus_sign_counterexample :
    decimalIntegerLiteral "+5" = false ∧ ("+5" : String) ≠ "" ∧
    get_recipes [1, 2, 3] (some "+5") = some [1, 2, 3] := by
  refine ⟨by decide, by decide, by decide⟩

/-- A value `pyInt?` accepts is a non-empty string. -/
theorem pyInt_some_isEmpty_false (v : String) (n : Int)
    (hp : pyInt? v = some n) : v.isEmpty = false := by
  cases hb : v.isEmpty with
  | false => rfl
  | true =>
    have hvE : v = "" := (String.isEmpty_iff v).1 hb
    subst hvE
    rw [show pyInt? "" = none from rfl] at hp
    exact Option.noConfusion hp

/-- Claim C10, amended: an absent or empty `recipes_limit` leaves the full
recipe list.  For a non-empty value: if Python's `int` rejects it (stated on
the ASCII fragment, where `pyInt?` models `int` exactly), rendering raises an
unhandled exception — a server error, not a field-scoped client input error;
if `int` accepts it as a negative integer, rendering also raises (queryset
slicing rejects a negative bound); if `int` accepts it as a nonnegative
integer `n`, rendering succeeds and caps the preview list at `n`. -/
theorem get_recipes_limit_amended (recipes : List Nat) (v : String) :
    get_recipes recipes none = some recipes ∧
    get_recipes recipes (some "") = some recipes ∧
    (v.data.all isAsciiChar = true → ¬ v = "" → pyInt? v = none →
      get_recipes recipes (some v) = none) ∧
    (∀ n : Int, pyInt? v = some n → n < 0 →
      get_recipes recipes (some v) = none) ∧
    (∀ n : Int, pyInt? v = some n → 0 ≤ n →
      get_recipes recipes (some v) = some (recipes.take n.toNat)) := by
  refine ⟨rfl, rfl, ?_, ?_, ?_⟩
  · intro _ hv hp
    have hne : v.isEmpty = false := by
      rw [Bool.eq_false_iff]
      intro hc
      exact hv ((String.isEmpty_iff v).1 hc)
    simp [get_recipes, hne, hp]
  · intro n hp hneg
    have hne : v.isEmpty = false := pyInt_some_isEmpty_false v n hp
    simp [get_recipes, hne, hp, qs_slice_take, hneg]
  · intro n hp hge
    have hne : v.isEmpty = false := pyInt_some_isEmpty_false v n hp
    have hnlt : ¬ n < 0 := by omega
    simp [get_recipes, hne, hp, qs_slice_take, hnlt]

/-- Claim C10 amended, instantiated: a non-numeric `recipes_limit` raises, a
negative one raises through queryset slicing, and a nonnegative one caps the
list. -/
theorem get_recipes_limit_amended_witness :
    get_recipes [1, 2] none = some [1, 2] ∧
    get_recipes [1, 2] (some "abc") = none ∧
    get_recipes [1, 2] (some "-5") = none ∧
    get_recipes [1, 2] (some "7") = some [1, 2] :=
  ⟨(get_recipes_limit_amended [1, 2] "abc").1,
   (get_recipes_limit_amended [1, 2] "abc").2.2.1 (by decide) (by decide)
     (by decide),
   (get_recipes_limit_amended [1, 2] "-5").2.2.2.1 (-5) (by decide)
     (by decide),
   (get_recipes_limit_amended [1, 2] "7").2.2.2.2 7 (by decide) (by decide)⟩

/-- Claim C3: read-only methods pass the composed recipe permission for every
requester; a write without an authenticated principal (Django's
`AnonymousUser`, whose ` is_staff` flag is `False`) is rejected with the
authentication-required outcome; a write by an authenticated, non-staff
non-author is rejected with the forbidden outcome — and in both rejection
cases the store is left unchanged. -/
theorem recipe_write_permission_spec (method : String) (user : PyUser)
    (authorId : Nat) (db : List Ingredient) (s : RecipeStore) (r : Nat)
    (tags : List Nat) (ingredients : List IngredientItem) :
    (method ∈ SAFE_METHODS →
      checkRecipePermission method user authorId = .allowed) ∧
    (method ∉ SAFE_METHODS → user.is_authenticated = false →
      user.is_staff = false →
      checkRecipePermission method user authorId = .unauthenticated ∧
      (guardedRecipeUpdate method user authorId db s r tags
        ingredients).2 = s) ∧
    (method ∉ SAFE_METHODS → user.is_authenticated = true →
      user.is_staff = false → user.id ≠ authorId →
      checkRecipePermission method user authorId = .forbidden ∧
      (guardedRecipeUpdate method user authorId db s r tags
        ingredients).2 = s) := by
  refine ⟨?_, ?_, ?_⟩
  · intro h
    simp [checkRecipePermission, recipe_has_permission,
      recipe_has_object_permission, isAuthorOrReadOnly_has_permission,
      isAdminOrReadOnly_has_permission,
      isAuthorOrReadOnly_has_object_permission, h]
  · intro h ha hs0
    have hc : checkRecipePermission method user authorId = .unauthenticated := by
      simp [checkRecipePermission, recipe_has_permission,
        recipe_has_object_permission, isAuthorOrReadOnly_has_permission,
        isAdminOrReadOnly_has_permission,
        isAuthorOrReadOnly_has_object_permission, h, ha, hs0]
    exact ⟨hc, by simp [guardedRecipeUpdate, hc]⟩
  · intro h ha hs0 hne
    have hc : checkRecipePermission method user authorId = .forbidden := by
      simp [checkRecipePermission, recipe_has_permission,
        recipe_has_object_permission, isAuthorOrReadOnly_has_permission,
        isAdminOrReadOnly_has_permission,
        isAuthorOrReadOnly_has_object_permission, h, ha, hs0, hne]
    exact ⟨hc, by simp [guardedRecipeUpdate, hc]⟩

/-- Claim C3, instantiated: a read by an anonymous user is allowed; an
anonymous write is rejected as unauthenticated; a write by authenticated
non-staff user 2 on a recipe authored by user 1 is rejected as forbidden,
leaving the store unchanged. -/
theorem recipe_write_permission_spec_witness :
    checkRecipePermission "GET" ⟨0, false, false⟩ 1 = .allowed ∧
    (checkRecipePermission "PATCH" ⟨0, false, false⟩ 1 = .unauthenticated ∧
      (guardedRecipeUpdate "PATCH" ⟨0, false, false⟩ 1 dbSample storeSample 5
        [2] [⟨1, 4⟩]).2 = storeSample) ∧
    (checkRecipePermission "PATCH" ⟨2, true, false⟩ 1 = .forbidden ∧
      (guardedRecipeUpdate "PATCH" ⟨2, true, false⟩ 1 dbSample storeSample 5
        [2] [⟨1, 4⟩]).2 = storeSample) :=
  ⟨(recipe_write_permission_spec "GET" ⟨0, false, false⟩ 1 dbSample
      storeSample 5 [2] [⟨1, 4⟩]).1 (by decide),
   (recipe_write_permission_spec "PATCH" ⟨0, false, false⟩ 1 dbSample
      storeSample 5 [2] [⟨1, 4⟩]).2.1 (by decide) rfl rfl,
   (recipe_write_permission_spec "PATCH" ⟨2, true, false⟩ 1 dbSample
      storeSample 5 [2] [⟨1, 4⟩]).2.2 (by decide) rfl rfl (by decide)⟩

/-- Filtering twice with the same predicate filters once. -/
theorem filter_self_idem {α : Type} (l : List α) (p : α → Bool) :
    (l.filter p).filter p = l.filter p :=
  List.filter_eq_self.2 (fun _ ha => List.of_mem_filter ha)

/-- Filtering with a predicate after keeping only its complement is empty. -/
theorem filter_neg_filter {α : Type} (l : List α) (p : α → Bool) :
    (l.filter (fun a => !(p a))).filter p = [] := by
  rw [List.filter_eq_nil_iff]
  intro a ha
  have hb := List.of_mem_filter ha
  simp only [Bool.not_eq_true'] at hb
  simp [hb]

/-- Rows built with a fixed first component all survive the `= r` filter. -/
theorem filter_fst_eq_map {α γ : Type} (r : Nat) (l : List α) (g : α → γ) :
    (l.map (fun a => (r, g a))).filter (fun row => row.1 == r)
      = l.map (fun a => (r, g a)) :=
  List.filter_eq_self.2 (by
    intro a ha
    rcases List.mem_map.1 ha with ⟨x, _, rfl⟩
    simp)

/-- Rows built with a fixed first component all die under the `≠ r` filter. -/
theorem filter_fst_ne_map {α γ : Type} (r : Nat) (l : List α) (g : α → γ) :
    (l.map (fun a => (r, g a))).filter (fun row => !(row.1 == r)) = [] := by
  rw [List.filter_eq_nil_iff]
  intro a ha
  rcases List.mem_map.1 ha with ⟨x, _, rfl⟩
  simp

/-- Claim C1: after a successful update request, the stored rows for the
updated recipe are exactly the supplied tags and the supplied
`(ingredient, amount)` pairs — prior associations are fully cleared with no
residue — while the rows of every other recipe and the `Recipe` table itself
are untouched (the whole mutation being one `@transaction.atomic` state
transition). -/
theorem recipe_update_full_replacement (db : List Ingredient)
    (s : RecipeStore) (r : Nat) (tags : List Nat)
    (ings : List IngredientItem) (s2 : RecipeStore)
    (h : recipeWriteUpdate db s r tags ings = .ok s2) :
    s2.recipeTags.filter (fun row => row.1 == r)
      = tags.map (fun t => (r, t)) ∧
    s2.recipeIngredients.filter (fun row => row.1 == r)
      = ings.map (fun item => (r, item.id, item.amount)) ∧
    s2.recipeTags.filter (fun row => !(row.1 == r))
      = s.recipeTags.filter (fun row => !(row.1 == r)) ∧
    s2.recipeIngredients.filter (fun row => !(row.1 == r))
      = s.recipeIngredients.filter (fun row => !(row.1 == r)) ∧
    s2.recipes = s.recipes := by
  have hs2 : s2 = recipe_update s r tags ings := by
    cases hvi : validate_ingredients db ings with
    | error e => simp [recipeWriteUpdate, hvi] at h
    | ok w =>
      cases hvt : validate_tags tags with
      | error e => simp [recipeWriteUpdate, hvi, hvt] at h
      | ok w2 =>
        simp [recipeWriteUpdate, hvi, hvt] at h
        exact h.symm
  subst hs2
  simp only [recipe_update, create_ingredients_amounts, ingredients_clear,
    tags_set, tags_clear]
  refine ⟨?_, ?_, ?_, ?_, trivial⟩
  · simp [List.filter_append, filter_self_idem, filter_neg_filter,
      filter_fst_eq_map]
  · simp [List.filter_append, filter_neg_filter, filter_fst_eq_map]
  · simp [List.filter_append, filter_self_idem, filter_fst_ne_map]
  · simp [List.filter_append, filter_self_idem, filter_fst_ne_map]

/-- Claim C1, instantiated: updating recipe 5 of the sample store with tag 2
and ingredient `(1, amount 4)` leaves exactly those associations for recipe 5
and does not touch the `Recipe` table. -/
theorem recipe_update_full_replacement_witness :
    recipeWriteUpdate dbSample storeSample 5 [2] [⟨1, 4⟩]
      = .ok (recipe_update storeSample 5 [2] [⟨1, 4⟩]) ∧
    (recipe_update storeSample 5 [2] [⟨1, 4⟩]).recipeTags.filter
      (fun row => row.1 == 5) = [(5, 2)] ∧
    (recipe_update storeSample 5 [2] [⟨1, 4⟩]).recipeIngredients.filter
      (fun row => row.1 == 5) = [(5, 1, 4)] ∧
    (recipe_update storeSample 5 [2] [⟨1, 4⟩]).recipes
      = storeSample.recipes := by
  have h := recipe_update_full_replacement dbSample storeSample 5 [2]
    [⟨1, 4⟩] (recipe_update storeSample 5 [2] [⟨1, 4⟩]) (by rfl)
  exact ⟨by rfl, h.1, h.2.1, h.2.2.2.2⟩

/-- A successful tag scan means: no duplicates, and no tag was already
seen. -/
theorem validateTagsAux_ok_facts : ∀ (tags seen : List Nat),
    validateTagsAux seen tags = .ok () →
    tags.Nodup ∧ ∀ t ∈ tags, t ∉ seen := by
  intro tags
  induction tags with
  | nil => intro seen _; simp
  | cons a rest ih =>
    intro seen h
    unfold validateTagsAux at h
    by_cases ha : a ∈ seen
    · simp [ha] at h
    · rw [if_neg ha] at h
      obtain ⟨hnd, hni⟩ := ih (seen ++ [a]) h
      have hanotin : a ∉ rest := by
        intro hmem
        have := hni a hmem
        simp at this
      refine ⟨List.nodup_cons.2 ⟨hanotin, hnd⟩, ?_⟩
      intro t ht
      rcases List.mem_cons.1 ht with rfl | ht2
      · exact ha
      · intro hts
        exact (hni t ht2) (List.mem_append_left _ hts)

/-- The tag scan only ever produces validation errors. -/
theorem validateTagsAux_error_validation : ∀ (tags seen : List Nat)
    (e : ApiError), validateTagsAux seen tags = .error e →
    ∃ m, e = .validation m := by
  intro tags
  induction tags with
  | nil => intro seen e h; simp [validateTagsAux] at h
  | cons a rest ih =>
    intro seen e h
    unfold validateTagsAux at h
    by_cases ha : a ∈ seen
    · rw [if_pos ha] at h
      exact ⟨_, (Except.error.inj h).symm⟩
    · rw [if_neg ha] at h
      exact ih (seen ++ [a]) e h

/-- An empty or duplicate-containing tag list always fails `validate_tags`
with a client input error. -/
theorem validate_tags_bad (tags : List Nat)
    (hbad : tags = [] ∨ ¬ tags.Nodup) :
    ∃ m, validate_tags tags = .error (.validation m) := by
  rcases hbad with rfl | hnd
  · exact ⟨"Нужно выбрать хотя бы один тег!", rfl⟩
  · have hne : tags.isEmpty = false := by
      cases tags with
      | nil => simp at hnd
      | cons a rest => rfl
    cases hv : validateTagsAux [] tags with
    | ok u =>
      cases u
      exact absurd (validateTagsAux_ok_facts tags [] hv).1 hnd
    | error e =>
      obtain ⟨m, rfl⟩ := validateTagsAux_error_validation tags [] e hv
      exact ⟨m, by simp [validate_tags, hne, hv]⟩

/-- A successful ingredient scan means: the ids are duplicate-free, every
amount is positive, and no id was already seen. -/
theorem validateIngredientsAux_ok_facts (db : List Ingredient) :
    ∀ (items : List IngredientItem) (seen : List Nat),
    validateIngredientsAux db seen items = .ok () →
    (items.map (fun i => i.id)).Nodup ∧
    (∀ item ∈ items, 0 < item.amount) ∧
    (∀ item ∈ items, item.id ∉ seen) := by
  intro items
  induction items with
  | nil => intro seen _; simp
  | cons item rest ih =>
    intro seen h
    unfold validateIngredientsAux at h
    cases hf : db.find? (fun ing => ing.id == item.id) with
    | none => rw [hf] at h; simp at h
    | some ing =>
      simp only [hf] at h
      have hid : ing.id = item.id := by
        have := List.find?_some hf
        simpa using this
      by_cases hs : ing.id ∈ seen
      · rw [if_pos hs] at h; simp at h
      · rw [if_neg hs] at h
        by_cases hamt : item.amount ≤ 0
        · rw [if_pos hamt] at h; simp at h
        · rw [if_neg hamt] at h
          obtain ⟨hnd, hpos, hnin⟩ := ih (seen ++ [ing.id]) h
          rw [hid] at hs hnin
          refine ⟨?_, ?_, ?_⟩
          · rw [List.map_cons]
            refine List.nodup_cons.2 ⟨?_, hnd⟩
            intro hmem
            rcases List.mem_map.1 hmem with ⟨x, hx, hxid⟩
            have hxni := hnin x hx
            rw [hxid] at hxni
            simp at hxni
          · intro it hit
            rcases List.mem_cons.1 hit with rfl | hit2
            · omega
            · exact hpos it hit2
          · intro it hit
            rcases List.mem_cons.1 hit with rfl | hit2
            · exact hs
            · intro hin
              exact (hnin it hit2) (List.mem_append_left _ hin)

/-- When every referenced ingredient id exists in the table, the ingredient
scan never raises the not-found error. -/
theorem validateIngredientsAux_no404 (db : List Ingredient) :
    ∀ (items : List IngredientItem) (seen : List Nat),
    (∀ item ∈ items, ∃ ing ∈ db, ing.id = item.id) →
    validateIngredientsAux db seen items ≠ .error .http404 := by
  intro items
  induction items with
  | nil => intro seen _ h; simp [validateIngredientsAux] at h
  | cons item rest ih =>
    intro seen hex h
    unfold validateIngredientsAux at h
    cases hf : db.find? (fun ing => ing.id == item.id) with
    | none =>
      obtain ⟨ing, hing, hingid⟩ := hex item (List.mem_cons_self _ _)
      have hnone := List.find?_eq_none.1 hf ing hing
      simp [hingid] at hnone
    | some ing =>
      simp only [hf] at h
      by_cases hs : ing.id ∈ seen
      · rw [if_pos hs] at h; simp at h
      · rw [if_neg hs] at h
        by_cases hamt : item.amount ≤ 0
        · rw [if_pos hamt] at h; simp at h
        · rw [if_neg hamt] at h
          exact ih (seen ++ [ing.id])
            (fun x hx => hex x (List.mem_cons_of_mem _ hx)) h

/-- Under existing ingredient ids, any error of `validate_ingredients` is a
validation error. -/
theorem validate_ingredients_error_validation (db : List Ingredient)
    (ings : List IngredientItem) (e : ApiError)
    (hex : ∀ item ∈ ings, ∃ ing ∈ db, ing.id = item.id)
    (h : validate_ingredients db ings = .error e) :
    ∃ m, e = .validation m := by
  unfold validate_ingredients at h
  by_cases hemp : ings.isEmpty
  · rw [if_pos hemp] at h
    exact ⟨_, (Except.error.inj h).symm⟩
  · rw [if_neg hemp] at h
    cases hv : validateIngredientsAux db [] ings with
    | ok u => simp [hv] at h
    | error e2 =>
      simp only [hv] at h
      have he : e2 = e := Except.error.inj h
      subst he
      cases e2 with
      | http404 => exact absurd hv (validateIngredientsAux_no404 db ings [] hex)
      | validation m => exact ⟨m, rfl⟩

/-- An empty list, a duplicate id or a non-positive amount always fails
`validate_ingredients` with a client input error, provided every referenced
id exists. -/
theorem validate_ingredients_bad (db : List Ingredient)
    (ings : List IngredientItem)
    (hex : ∀ item ∈ ings, ∃ ing ∈ db, ing.id = item.id)
    (hbad : ings = [] ∨ ¬ (ings.map (fun i => i.id)).Nodup ∨
      ∃ item ∈ ings, item.amount ≤ 0) :
    ∃ m, validate_ingredients db ings = .error (.validation m) := by
  by_cases hemp : ings = []
  · subst hemp
    exact ⟨"Нужен хотя бы один ингредиент!", rfl⟩
  · have hne : ings.isEmpty = false := by
      cases ings with
      | nil => exact absurd rfl hemp
      | cons a rest => rfl
    cases hv : validateIngredientsAux db [] ings with
    | ok u =>
      cases u
      obtain ⟨hnd, hpos, _⟩ := validateIngredientsAux_ok_facts db ings [] hv
      rcases hbad with rfl | hdup | ⟨it, hit, hle⟩
      · exact absurd rfl hemp
      · exact absurd hnd hdup
      · have := hpos it hit; omega
    | error e =>
      obtain ⟨m, rfl⟩ :=
        validate_ingredients_error_validation db ings e hex
          (by simp [validate_ingredients, hne, hv])
      exact ⟨m, by simp [validate_ingredients, hne, hv]⟩

/-- Claim C5: a recipe create or update request with an empty ingredient
list, a duplicate ingredient id, a non-positive amount, an empty tag list or
a duplicate tag always fails validation with a client input error, and the
store is left entirely unchanged (no recipe row, no association).  The
referenced ingredient ids are assumed to exist (a missing id is the separate
not-found case). -/
theorem recipe_validation_rejects_bad_input (db : List Ingredient)
    (s : RecipeStore) (r : Nat) (tags : List Nat)
    (ings : List IngredientItem)
    (hex : ∀ item ∈ ings, ∃ ing ∈ db, ing.id = item.id)
    (hbad : ings = [] ∨ ¬ (ings.map (fun i => i.id)).Nodup ∨
      (∃ item ∈ ings, item.amount ≤ 0) ∨ tags = [] ∨ ¬ tags.Nodup) :
    (∃ m, recipeWriteCreate db s r tags ings = .error (.validation m)) ∧
    (∃ m2, recipeWriteUpdate db s r tags ings = .error (.validation m2)) ∧
    apply_write s (recipeWriteCreate db s r tags ings) = s ∧
    apply_write s (recipeWriteUpdate db s r tags ings) = s := by
  cases hv : validate_ingredients db ings with
  | error e =>
    obtain ⟨m, rfl⟩ :=
      validate_ingredients_error_validation db ings e hex hv
    exact ⟨⟨m, by simp [recipeWriteCreate, hv]⟩,
      ⟨m, by simp [recipeWriteUpdate, hv]⟩,
      by simp [apply_write, recipeWriteCreate, hv],
      by simp [apply_write, recipeWriteUpdate, hv]⟩
  | ok w =>
    have hfacts : ¬ ings = [] ∧ (ings.map (fun i => i.id)).Nodup ∧
        ∀ item ∈ ings, 0 < item.amount := by
      unfold validate_ingredients at hv
      by_cases hemp : ings.isEmpty
      · rw [if_pos hemp] at hv; simp at hv
      · rw [if_neg hemp] at hv
        cases hva : validateIngredientsAux db [] ings with
        | error e2 => simp [hva] at hv
        | ok u =>
          cases u
          obtain ⟨h1, h2, _⟩ := validateIngredientsAux_ok_facts db ings [] hva
          refine ⟨?_, h1, h2⟩
          intro hE
          subst hE
          simp at hemp
    have htag : tags = [] ∨ ¬ tags.Nodup := by
      rcases hbad with hE | hdup | ⟨it, hit, hle⟩ | hT | hT
      · exact absurd hE hfacts.1
      · exact absurd hfacts.2.1 hdup
      · have := hfacts.2.2 it hit; omega
      · exact Or.inl hT
      · exact Or.inr hT
    obtain ⟨m, hm⟩ := validate_tags_bad tags htag
    exact ⟨⟨m, by simp [recipeWriteCreate, hv, hm]⟩,
      ⟨m, by simp [recipeWriteUpdate, hv, hm]⟩,
      by simp [apply_write, recipeWriteCreate, hv, hm],
      by simp [apply_write, recipeWriteUpdate, hv, hm]⟩

/-- Claim C5, instantiated: a request repeating ingredient id 1 fails both
create and update validation and leaves the sample store unchanged. -/
theorem recipe_validation_rejects_bad_input_witness :
    (∃ m, recipeWriteCreate dbSample storeSample 7 [2] [⟨1, 2⟩, ⟨1, 3⟩]
      = .error (.validation m)) ∧
    (∃ m2, recipeWriteUpdate dbSample storeSample 7 [2] [⟨1, 2⟩, ⟨1, 3⟩]
      = .error (.validation m2)) ∧
    apply_write storeSample
      (recipeWriteCreate dbSample storeSample 7 [2] [⟨1, 2⟩, ⟨1, 3⟩])
      = storeSample ∧
    apply_write storeSample
      (recipeWriteUpdate dbSample storeSample 7 [2] [⟨1, 2⟩, ⟨1, 3⟩])
      = storeSample :=
  recipe_validation_rejects_bad_input dbSample storeSample 7 [2]
    [⟨1, 2⟩, ⟨1, 3⟩] (by decide) (by decide)

/-- The keys of the aggregated shopping list are the distinct
`(name, unit)` pairs of the carted ingredient rows. -/
theorem cart_lines_map_fst (cart : List Nat) (rows : List CartRow) :
    (cart_lines cart rows).map Prod.fst
      = ((rows.filter (fun row => decide (row.recipe ∈ cart))).map
          (fun row => (row.name, row.measurement_unit))).dedup := by
  unfold cart_lines
  rw [List.map_map]
  exact List.map_id _

/-- Claim C2: downloading with an empty cart fails with the client error;
with a non-empty cart the result has exactly one line per distinct
`(ingredient name, measurement unit)` pair occurring among the carted
recipes' ingredient rows, and each line's amount is the sum of the amounts
of all rows with that pair. -/
theorem download_shopping_cart_spec (cart : List Nat) (rows : List CartRow) :
    (cart = [] →
      download_shopping_cart cart rows = .error "Корзина покупок пуста!") ∧
    (cart ≠ [] → ∃ lines,
      download_shopping_cart cart rows = .ok lines ∧
      (lines.map Prod.fst).Nodup ∧
      (∀ k, k ∈ lines.map Prod.fst ↔
        ∃ row ∈ rows, row.recipe ∈ cart ∧
          (row.name, row.measurement_unit) = k) ∧
      (∀ p ∈ lines, p.2 =
        ((rows.filter (fun row => decide (row.recipe ∈ cart) &&
            decide ((row.name, row.measurement_unit) = p.1))).map
              (fun row => row.amount)).sum)) := by
  constructor
  · intro h; subst h; rfl
  · intro h
    have hne : cart.isEmpty = false := by
      cases cart with
      | nil => exact absurd rfl h
      | cons a rest => rfl
    refine ⟨cart_lines cart rows, by simp [download_shopping_cart, hne],
      ?_, ?_, ?_⟩
    · rw [cart_lines_map_fst]
      exact List.nodup_dedup _
    · intro k
      rw [cart_lines_map_fst, List.mem_dedup, List.mem_map]
      constructor
      · rintro ⟨row, hrow, hkey⟩
        have hm := List.mem_filter.1 hrow
        exact ⟨row, hm.1, by simpa using hm.2, hkey⟩
      · rintro ⟨row, hrow, hcart, hkey⟩
        exact ⟨row, List.mem_filter.2 ⟨hrow, by simpa using hcart⟩, hkey⟩
    · intro p hp
      rcases List.mem_map.1 hp with ⟨k, _, rfl⟩
      simp only
      rw [List.filter_filter]
      refine congrArg List.sum (congrArg (List.map _) ?_)
      refine List.filter_congr ?_
      intro a _
      rw [Bool.and_comm]

/-- Claim C2, instantiated: recipes 1 and 2 are in the cart; eggs occur in
both and are summed into a single line. -/
theorem download_shopping_cart_spec_witness :
    download_shopping_cart [] rowsSample
      = .error "Корзина покупок пуста!" ∧
    (∃ lines, download_shopping_cart [1, 2] rowsSample = .ok lines ∧
      (lines.map Prod.fst).Nodup ∧
      (∀ k, k ∈ lines.map Prod.fst ↔
        ∃ row ∈ rowsSample, row.recipe ∈ [1, 2] ∧
          (row.name, row.measurement_unit) = k) ∧
      (∀ p ∈ lines, p.2 =
        ((rowsSample.filter (fun row => decide (row.recipe ∈ [1, 2]) &&
            decide ((row.name, row.measurement_unit) = p.1))).map
              (fun row => row.amount)).sum)) :=
  ⟨(download_shopping_cart_spec [] rowsSample).1 rfl,
   (download_shopping_cart_spec [1, 2] rowsSample).2 (by decide)⟩

end Foodgram
